import Mathlib

/-!
Shallow embedding of `audit_tool.py`, a host activity auditor consisting of a
filesystem watcher with temporary-file correlation, a process-snapshot monitor,
a network connection-table monitor, an encoded-address decoder and CLI startup
validation.

Python strings are modelled as `List Char` (with `String` at the interface),
Python `set` as `Finset`, dictionaries as association lists, and exceptions
that escape a call as an explicit result constructor.  The unicode-aware
Python character predicates (`str.strip`, `str.isdigit`, whitespace splitting)
are modelled on their ASCII core, which is the alphabet all relevant inputs
(`/proc` entries, hexadecimal fields, file paths) are drawn from.
-/

/-- ASCII whitespace recognised by Python's `str.strip()` and `str.split()`. -/
def isPySpace (c : Char) : Bool :=
  c == ' ' || c == '\t' || c == '\n' || c == '\x0b' || c == '\x0c' || c == '\r'

/-- Python `str.strip()` (no argument): drop whitespace from both ends. -/
def pyStrip (s : List Char) : List Char :=
  ((s.dropWhile isPySpace).reverse.dropWhile isPySpace).reverse

/-- `isPre p s` holds when `p` is a leading segment of `s`. -/
def isPre : List Char → List Char → Bool
  | [], _ => true
  | _ :: _, [] => false
  | p :: ps, c :: cs => p == c && isPre ps cs

/-- Python's substring test `pat in s`. -/
def hasSub (pat : List Char) : List Char → Bool
  | [] => isPre pat []
  | c :: t => isPre pat (c :: t) || hasSub pat (t)

/-- Python `s.split(pat)[0]`: the part of `s` before the first occurrence of
`pat` (all of `s` when `pat` does not occur). -/
def takeBeforeSub (pat : List Char) : List Char → List Char
  | [] => []
  | c :: t => if isPre pat (c :: t) then [] else c :: takeBeforeSub pat t

/-- `os.path.basename` (POSIX): everything after the last `'/'`. -/
def pyBasename (s : List Char) : List Char :=
  (s.reverse.takeWhile (fun c => !(c == '/'))).reverse

/-- Drop trailing `'/'` characters (the `rstrip('/')` step of `dirname`). -/
def rstripSlash (l : List Char) : List Char :=
  (l.reverse.dropWhile (fun c => c == '/')).reverse

/-- `os.path.dirname` (POSIX): the prefix up to the last `'/'`, then trailing
slashes stripped unless the result is empty or all slashes. -/
def pyDirname (s : List Char) : List Char :=
  let head := (s.reverse.dropWhile (fun c => !(c == '/'))).reverse
  if head.isEmpty || head.all (fun c => c == '/') then head else rstripSlash head

/-- Worker for `pySplitWs`, accumulating the current word reversed. -/
def splitWsAux : List Char → List Char → List (List Char)
  | [], acc => if acc.isEmpty then [] else [acc.reverse]
  | c :: t, acc =>
    if isPySpace c then
      if acc.isEmpty then splitWsAux t [] else acc.reverse :: splitWsAux t []
    else splitWsAux t (c :: acc)

/-- Python `str.split()` with no argument: split on whitespace runs, no empty
fields. -/
def pySplitWs (s : List Char) : List (List Char) := splitWsAux s []

/-- Worker for `splitOnChar`. -/
def splitOnCharAux (sep : Char) : List Char → List Char → List (List Char)
  | [], acc => [acc.reverse]
  | c :: t, acc =>
    if c == sep then acc.reverse :: splitOnCharAux sep t []
    else splitOnCharAux sep t (c :: acc)

/-- Python `str.split(sep)` for a one-character separator: empty fields kept. -/
def splitOnChar (sep : Char) (s : List Char) : List (List Char) :=
  splitOnCharAux sep s []

/-- Python `str.isdigit()` on its ASCII core: nonempty and all decimal digits. -/
def pyIsdigit (s : List Char) : Bool :=
  !s.isEmpty && s.all (fun c => 48 ≤ c.toNat && c.toNat ≤ 57)

/-- The decimal digit character for `n < 10`. -/
def decDigit (n : Nat) : Char := Char.ofNat (48 + n)

/-- Decimal rendering of one octet (inputs are always `< 256`). -/
def byteToDec (n : Nat) : List Char :=
  if n < 10 then [decDigit n]
  else if n < 100 then [decDigit (n / 10), decDigit (n % 10)]
  else [decDigit (n / 100), decDigit (n / 10 % 10), decDigit (n % 10)]

/-- Value of one hexadecimal digit (`0-9`, `a-f`, `A-F`), by code point. -/
def hexDigitVal (c : Char) : Option Nat :=
  if 48 ≤ c.toNat ∧ c.toNat ≤ 57 then some (c.toNat - 48)
  else if 97 ≤ c.toNat ∧ c.toNat ≤ 102 then some (c.toNat - 87)
  else if 65 ≤ c.toNat ∧ c.toNat ≤ 70 then some (c.toNat - 55)
  else none

/-- Hex digits after the first one, allowing a single `'_'` between digits
(Python integer-literal grammar).  `afterUnd` records that the previous
character was an underscore, which must be followed by a digit. -/
def parseHexTail (acc : Nat) (afterUnd : Bool) : List Char → Option Nat
  | [] => if afterUnd then none else some acc
  | c :: rest =>
    if c == '_' then
      if afterUnd then none else parseHexTail acc true rest
    else
      match hexDigitVal c with
      | some v => parseHexTail (acc * 16 + v) false rest
      | none => none

/-- A nonempty hex-digit run: first character must be a digit. -/
def parseHexBody : List Char → Option Nat
  | [] => none
  | c :: rest =>
    match hexDigitVal c with
    | some v => parseHexTail v false rest
    | none => none

/-- After the optional sign: an optional `0x`/`0X` prefix (with one optional
`'_'` after it), then the digit run. -/
def parseAfterSign (l : List Char) : Option Nat :=
  match l with
  | c0 :: c1 :: rest =>
    if c0 == '0' && (c1 == 'x' || c1 == 'X') then
      match rest with
      | c2 :: r2 => if c2 == '_' then parseHexBody r2 else parseHexBody (c2 :: r2)
      | [] => parseHexBody []
    else parseHexBody (c0 :: c1 :: rest)
  | l => parseHexBody l

/-- Python `int(s, 16)`: surrounding whitespace stripped, optional sign,
optional `0x` prefix, hex digits with single underscores between digits.
`none` models the `ValueError` this raises on any other input. -/
def pyIntHex (s : List Char) : Option Int :=
  match pyStrip s with
  | [] => none
  | c :: rest =>
    if c == '+' then (parseAfterSign rest).map (fun n => (n : Int))
    else if c == '-' then (parseAfterSign rest).map (fun n => -(n : Int))
    else (parseAfterSign (c :: rest)).map (fun n => (n : Int))

/-- The value of a plain hex-digit list read most-significant first. -/
def hexListVal (l : List Char) : Nat :=
  l.foldl (fun a c => a * 16 + (hexDigitVal c).getD 0) 0

/-- Result of a Python call: a value, or an exception escaping the call. -/
inductive PyResult (α : Type) where
  | ok (val : α)
  | exn
deriving DecidableEq

/-- `socket.inet_ntoa(struct.pack("<L", n))` for `n < 2^32`: the four bytes of
`n`, least significant first, rendered as a dotted quad. -/
def inet_ntoa_le (n : Nat) : String :=
  String.mk (byteToDec (n % 256) ++ '.' :: byteToDec (n / 256 % 256)
    ++ '.' :: byteToDec (n / 65536 % 256) ++ '.' :: byteToDec (n / 16777216 % 256))

/-- `hex_to_ip` from `audit_tool.py`: parse the field as hex (a `ValueError`
is caught and becomes the sentinel `"Invalid IP"`), then pack as an unsigned
little-endian 32-bit value.  A value outside `[0, 2^32)` makes `struct.pack`
raise `struct.error`, which is not a `ValueError` and escapes the call. -/
def hex_to_ip (hex_ip : String) : PyResult String :=
  match pyIntHex hex_ip.data with
  | none => .ok "Invalid IP"
  | some n => if 0 ≤ n ∧ n < 4294967296 then .ok (inet_ntoa_le n.toNat) else .exn

/-- One reported connection: decoded local address and port. -/
structure ConnReport where
  addr : String
  port : Int
deriving DecidableEq

/-- The body of `monitor_network`'s per-line loop: `parts = conn.split()`,
`local_ip, local_port = parts[1].split(':')`, then the log line evaluates
`hex_to_ip(local_ip)` and `int(local_port, 16)`.  A missing field
(`IndexError`), an unpacking failure (`ValueError`), an escaping
`struct.error` or a port `ValueError` all propagate: `.exn`. -/
def processConnLine (line : String) : PyResult ConnReport :=
  match (pySplitWs line.data)[1]? with
  | none => .exn
  | some fld =>
    match splitOnChar ':' fld with
    | [localIp, localPort] =>
      match hex_to_ip (String.mk localIp) with
      | .exn => .exn
      | .ok addr =>
        match pyIntHex localPort with
        | none => .exn
        | some p => .ok ⟨addr, p⟩
    | _ => .exn

/-- The per-cycle loop over one connection table (header already dropped by
`read_connections`): lines are processed in order and an exception raised on
any line propagates, abandoning the rest of the cycle. -/
def processConnLines : List String → PyResult (List ConnReport)
  | [] => .ok []
  | line :: rest =>
    match processConnLine line with
    | .exn => .exn
    | .ok r =>
      match processConnLines rest with
      | .exn => .exn
      | .ok rs => .ok (r :: rs)

/-- `/proc` entry names are Python strings; a PID is such a name. -/
abbrev Pid := List Char

/-- The snapshot differ used by `monitor_processes`:
`new = current - known`, `terminated = known - current`. -/
def snapshotDiff {α : Type} [DecidableEq α] (previous current : Finset α) :
    Finset α × Finset α :=
  (current \ previous, previous \ current)

/-- `set(pid for pid in os.listdir('/proc') if pid.isdigit())`. -/
def currentPids (entries : List (List Char)) : Finset Pid :=
  (entries.filter pyIsdigit).toFinset

/-- `f.read().replace('\x00', ' ').strip()` applied to a raw cmdline blob. -/
def cleanCmd (raw : List Char) : List Char :=
  pyStrip (raw.map (fun c => if c == '\x00' then ' ' else c))

/-- Events the process monitor can log. -/
inductive ProcEvent where
  | started (pid : Pid) (cmd : List Char)
  | startedNoCmd (pid : Pid)
  | terminated (pid : Pid)
deriving DecidableEq

/-- The PID an event refers to. -/
def ProcEvent.epid : ProcEvent → Pid
  | .started p _ => p
  | .startedNoCmd p => p
  | .terminated p => p

/-- The body of `monitor_processes`'s loop over `new_pids`: read
`/proc/<pid>/cmdline` (`none` models the `FileNotFoundError` of a process
that exited between the snapshot and the read, caught by `continue`); on
success log either a no-command start or a start with the cleaned command. -/
def processNewPid (readCmd : Pid → Option (List Char)) (pid : Pid) :
    List ProcEvent :=
  match readCmd pid with
  | none => []
  | some raw =>
    if (cleanCmd raw).isEmpty then [.startedNoCmd pid]
    else [.started pid (cleanCmd raw)]

/-- Events logged for the set of added PIDs.  Python iterates a `set` in
unspecified order, so the cycle's output is modelled as a multiset. -/
def newPidEvents (readCmd : Pid → Option (List Char)) (pids : Finset Pid) :
    Multiset ProcEvent :=
  pids.sum (fun pid => (processNewPid readCmd pid : Multiset ProcEvent))

/-- One termination event per removed PID. -/
def terminatedEvents (pids : Finset Pid) : Multiset ProcEvent :=
  pids.val.map ProcEvent.terminated

/-- One cycle of `monitor_processes`: diff the snapshots, log start events for
added PIDs and termination events for removed ones, and replace the previous
snapshot with the current one. -/
def processCycle (readCmd : Pid → Option (List Char))
    (known current : Finset Pid) : Multiset ProcEvent × Finset Pid :=
  let d := snapshotDiff known current
  (newPidEvents readCmd d.1 + terminatedEvents d.2, current)

/-- The temp-artifact marker checked by `FileAuditHandler`. -/
def markerChars : List Char := ".goutputstream".data

/-- `".goutputstream" in os.path.basename(path)`. -/
def hasMarker (path : String) : Bool :=
  hasSub markerChars (pyBasename path.data)

/-- `temp_path.split('.goutputstream')[0]`: the candidate original path. -/
def derivedOriginal (temp_path : String) : String :=
  String.mk (takeBeforeSub markerChars temp_path.data)

/-- `FileAuditHandler.find_original_file`: strip at the marker and return the
candidate when it exists on disk (`ex` is the `os.path.exists` oracle for the
instant of the check). -/
def find_original_file (ex : String → Bool) (temp_path : String) :
    Option String :=
  let base_name := derivedOriginal temp_path
  if ex base_name then some base_name else none

/-- Events the filesystem watcher can log. -/
inductive FsEvent where
  | tempCorrelation (temp orig : String)
  | dirCreated (path : String)
  | fileCreated (path : String)
  | dirDeleted (path : String)
  | fileDeleted (path : String)
  | renamed (src dst : String)
  | moved (src dst : String)
deriving DecidableEq

/-- Mutable state of `FileAuditHandler`: the `temporary_file_map` dictionary,
modelled as an association list with the newest entry first. -/
structure FileAuditState where
  temporary_file_map : List (String × String)
deriving DecidableEq

/-- `FileAuditHandler.on_created`.  On a marker name, correlate with the
original; `if original_path:` is Python truthiness, false for `None` and for
the empty string (note `os.path.exists("")` is `False`, so `ex "" = false`
for a faithful oracle). -/
def on_created (ex : String → Bool) (st : FileAuditState) (src : String)
    (is_directory : Bool) : FileAuditState × List FsEvent :=
  if hasMarker src then
    match find_original_file ex src with
    | some orig =>
      if orig.isEmpty then (st, [])
      else ({ temporary_file_map := (src, orig) :: st.temporary_file_map },
            [.tempCorrelation src orig])
    | none => (st, [])
  else if is_directory then (st, [.dirCreated src])
  else (st, [.fileCreated src])

/-- `FileAuditHandler.on_deleted`. -/
def on_deleted (src : String) (is_directory : Bool) : List FsEvent :=
  if hasMarker src then []
  else if is_directory then [.dirDeleted src]
  else [.fileDeleted src]

/-- `FileAuditHandler.on_moved`: only the source's base name is checked for
the marker; then same parent directory means renamed, different means moved. -/
def on_moved (src dst : String) : List FsEvent :=
  if hasMarker src then []
  else if pyDirname src.data = pyDirname dst.data then [.renamed src dst]
  else [.moved src dst]

/-- How `main` leaves startup: an early `sys.exit(code)` before any observer
is started, or proceeding to start the three observers on the given path. -/
inductive MainOutcome where
  | earlyExit (code : Nat)
  | startObservers (path : String)
deriving DecidableEq

/-- The argument validation of `main`: fewer than two `argv` entries exits
with status 1; a path that does not exist or is not a directory exits with
status 1; otherwise the observers are started on `argv[1]`. -/
def mainStartup (argv : List String) (path_exists isdir : String → Bool) :
    MainOutcome :=
  match argv with
  | _ :: path :: _ =>
    if !(path_exists path) || !(isdir path) then .earlyExit 1
    else .startObservers path
  | _ => .earlyExit 1

/-! ### Helper lemmas -/

theorem hexDigitVal_ne_of_none {c ch : Char} {v : Nat}
    (h : hexDigitVal c = some v) (hch : hexDigitVal ch = none) :
    (c == ch) = false := by
  by_contra hb
  rw [Bool.not_eq_false, beq_iff_eq] at hb
  rw [hb, hch] at h
  exact Option.noConfusion h

theorem isPySpace_of_hexDigit {c : Char} {v : Nat} (h : hexDigitVal c = some v) :
    isPySpace c = false := by
  have h1 : (c == ' ') = false := hexDigitVal_ne_of_none h (by decide)
  have h2 : (c == '\t') = false := hexDigitVal_ne_of_none h (by decide)
  have h3 : (c == '\n') = false := hexDigitVal_ne_of_none h (by decide)
  have h4 : (c == '\x0b') = false := hexDigitVal_ne_of_none h (by decide)
  have h5 : (c == '\x0c') = false := hexDigitVal_ne_of_none h (by decide)
  have h6 : (c == '\r') = false := hexDigitVal_ne_of_none h (by decide)
  simp [isPySpace, h1, h2, h3, h4, h5, h6]

theorem dropWhile_eq_self {p : Char → Bool} {l : List Char}
    (h : ∀ c ∈ l, p c = false) : l.dropWhile p = l := by
  cases l with
  | nil => rfl
  | cons a t => simp [List.dropWhile_cons, h a (List.mem_cons_self a t)]

theorem pyStrip_eq_self {l : List Char} (h : ∀ c ∈ l, isPySpace c = false) :
    pyStrip l = l := by
  unfold pyStrip
  rw [dropWhile_eq_self h,
    dropWhile_eq_self (fun c hc => h c (List.mem_reverse.mp hc)),
    List.reverse_reverse]

theorem hexDigitVal_lt_16 {c : Char} {v : Nat} (h : hexDigitVal c = some v) :
    v < 16 := by
  unfold hexDigitVal at h
  split_ifs at h with h1 h2 h3
  · injection h with h'; omega
  · injection h with h'; omega
  · injection h with h'; omega

theorem parseHexTail_digits (l : List Char)
    (h : ∀ c ∈ l, (hexDigitVal c).isSome = true) (acc : Nat) :
    parseHexTail acc false l =
      some (l.foldl (fun a c => a * 16 + (hexDigitVal c).getD 0) acc) := by
  induction l generalizing acc with
  | nil => rfl
  | cons c t ih =>
    obtain ⟨v, hv⟩ := Option.isSome_iff_exists.mp (h c (List.mem_cons_self c t))
    have hne : (c == '_') = false := hexDigitVal_ne_of_none hv (by decide)
    have ht : ∀ x ∈ t, (hexDigitVal x).isSome = true :=
      fun x hx => h x (List.mem_cons_of_mem c hx)
    simp only [parseHexTail, hne, Bool.false_eq_true, if_false, hv,
      List.foldl_cons]
    rw [ih ht]
    simp [hv]

theorem parseHexBody_digits (l : List Char) (hne : l ≠ [])
    (h : ∀ c ∈ l, (hexDigitVal c).isSome = true) :
    parseHexBody l = some (hexListVal l) := by
  cases l with
  | nil => exact absurd rfl hne
  | cons c t =>
    obtain ⟨v, hv⟩ := Option.isSome_iff_exists.mp (h c (List.mem_cons_self c t))
    have ht : ∀ x ∈ t, (hexDigitVal x).isSome = true :=
      fun x hx => h x (List.mem_cons_of_mem c hx)
    simp only [parseHexBody, hv]
    rw [parseHexTail_digits t ht]
    unfold hexListVal
    simp [hv]

theorem parseAfterSign_digits (l : List Char)
    (h : ∀ c ∈ l, (hexDigitVal c).isSome = true) :
    parseAfterSign l = parseHexBody l := by
  cases l with
  | nil => rfl
  | cons c0 t =>
    cases t with
    | nil => rfl
    | cons c1 rest =>
      obtain ⟨v1, hv1⟩ := Option.isSome_iff_exists.mp (h c1 (by simp))
      have hx : (c1 == 'x') = false := hexDigitVal_ne_of_none hv1 (by decide)
      have hX : (c1 == 'X') = false := hexDigitVal_ne_of_none hv1 (by decide)
      simp [parseAfterSign, hx, hX]

theorem pyIntHex_digits (l : List Char) (hne : l ≠ [])
    (h : ∀ c ∈ l, (hexDigitVal c).isSome = true) :
    pyIntHex l = some ((hexListVal l : Nat) : Int) := by
  have hsp : ∀ c ∈ l, isPySpace c = false := by
    intro c hc
    obtain ⟨v, hv⟩ := Option.isSome_iff_exists.mp (h c hc)
    exact isPySpace_of_hexDigit hv
  cases l with
  | nil => exact absurd rfl hne
  | cons c t =>
    obtain ⟨v, hv⟩ := Option.isSome_iff_exists.mp (h c (List.mem_cons_self c t))
    have hplus : (c == '+') = false := hexDigitVal_ne_of_none hv (by decide)
    have hminus : (c == '-') = false := hexDigitVal_ne_of_none hv (by decide)
    have hstrip : pyStrip (c :: t) = c :: t := pyStrip_eq_self hsp
    unfold pyIntHex
    rw [hstrip]
    simp only [hplus, hminus, Bool.false_eq_true, if_false]
    rw [parseAfterSign_digits _ h, parseHexBody_digits _ hne h]
    rfl

theorem hexFold_lt : ∀ (l : List Char),
    (∀ c ∈ l, (hexDigitVal c).isSome = true) → ∀ acc : Nat,
    List.foldl (fun a c => a * 16 + (hexDigitVal c).getD 0) acc l
      < (acc + 1) * 16 ^ l.length := by
  intro l
  induction l with
  | nil =>
    intro _ acc
    simp only [List.foldl_nil, List.length_nil, pow_zero, mul_one]
    exact Nat.lt_succ_self acc
  | cons c t ih =>
    intro h acc
    obtain ⟨v, hv⟩ := Option.isSome_iff_exists.mp (h c (List.mem_cons_self c t))
    have hvlt : v < 16 := hexDigitVal_lt_16 hv
    have ht : ∀ x ∈ t, (hexDigitVal x).isSome = true :=
      fun x hx => h x (List.mem_cons_of_mem c hx)
    have h1 := ih ht (acc * 16 + v)
    have h2 : (acc * 16 + v + 1) * 16 ^ t.length ≤ ((acc + 1) * 16) * 16 ^ t.length :=
      Nat.mul_le_mul (by omega) (le_refl _)
    have h3 : ((acc + 1) * 16) * 16 ^ t.length = (acc + 1) * 16 ^ (t.length + 1) := by
      rw [pow_succ]; ring
    simp only [List.foldl_cons, hv, Option.getD_some, List.length_cons]
    exact lt_of_lt_of_le h1 (h3 ▸ h2)

theorem hexListVal_lt (l : List Char)
    (h : ∀ c ∈ l, (hexDigitVal c).isSome = true) :
    hexListVal l < 16 ^ l.length := by
  have := hexFold_lt l h 0
  simpa [hexListVal] using this

/-! ### Claims -/

/-- C1: the snapshot differ computes, for every pair of PID sets
(previous, current), added = current minus previous and removed = previous
minus current; diffing any set against itself yields empty added and removed
sets. -/
theorem claim_C1 :
    (∀ previous current : Finset Pid,
        snapshotDiff previous current = (current \ previous, previous \ current)) ∧
    (∀ A : Finset Pid, snapshotDiff A A = (∅, ∅)) := by
  refine ⟨fun _ _ => rfl, fun A => ?_⟩
  simp [snapshotDiff, Finset.sdiff_self]

/-- C2: for every well-formed 8-hex-digit address string, decoding succeeds
and interprets the 32-bit value's 4 bytes in byte-reversed (little-endian)
order as a dotted quad; in particular decoding `"0100007F"` returns
`"127.0.0.1"`. -/
theorem claim_C2 :
    (∀ s : String, s.data.length = 8 →
        (∀ c ∈ s.data, (hexDigitVal c).isSome = true) →
        hex_to_ip s = .ok (inet_ntoa_le (hexListVal s.data))) ∧
    hex_to_ip "0100007F" = .ok "127.0.0.1" := by
  constructor
  · intro s hlen hdig
    have hne : s.data ≠ [] := by
      intro e; rw [e] at hlen; simp at hlen
    have hparse := pyIntHex_digits s.data hne hdig
    have hlt : hexListVal s.data < 4294967296 := by
      have hb := hexListVal_lt s.data hdig
      rw [hlen] at hb
      have : (16 : Nat) ^ 8 = 4294967296 := by norm_num
      omega
    simp only [hex_to_ip, hparse]
    rw [if_pos ⟨Int.ofNat_nonneg _, by exact_mod_cast hlt⟩]
    simp
  · decide

/-- C2 witness: the general round-trip theorem applied to the concrete
source-convention encoding of 127.0.0.1. -/
theorem claim_C2_witness :
    hex_to_ip "0100007F" = .ok (inet_ntoa_le (hexListVal "0100007F".data)) :=
  claim_C2.1 "0100007F" (by decide) (by decide)

/-- C3 counterexample: a wrong-length address string does not yield the
invalid sentinel: a short all-hex string decodes as a zero-padded value, and
a 9-hex-digit string makes the pack step raise an uncaught fault. -/
theorem claim_C3_counterexample :
    hex_to_ip "7F" = .ok "127.0.0.0" ∧ hex_to_ip "7F" ≠ .ok "Invalid IP" ∧
    hex_to_ip "FFFFFFFFF" = .exn := by decide

/-- C3 amended: decoding returns the invalid sentinel exactly when the hex
parse fails (the `ValueError` is caught); wrong-length input is not specially
handled: a parsed value inside the 32-bit range decodes normally (short
strings as if zero-padded), and a parsed value outside the range raises an
uncaught `struct.error` that escapes the decoder. -/
theorem claim_C3_amended : ∀ s : String,
    (pyIntHex s.data = none → hex_to_ip s = .ok "Invalid IP") ∧
    (∀ n : Int, pyIntHex s.data = some n → 0 ≤ n → n < 4294967296 →
        hex_to_ip s = .ok (inet_ntoa_le n.toNat)) ∧
    (∀ n : Int, pyIntHex s.data = some n → ¬(0 ≤ n ∧ n < 4294967296) →
        hex_to_ip s = .exn) := by
  intro s
  refine ⟨fun h => ?_, fun n h h0 h1 => ?_, fun n h hn => ?_⟩
  · simp [hex_to_ip, h]
  · simp only [hex_to_ip, h]
    rw [if_pos ⟨h0, h1⟩]
  · simp only [hex_to_ip, h]
    rw [if_neg hn]

/-- C3 witness: the amended theorem applied to a non-hex string. -/
theorem claim_C3_witness : hex_to_ip "zz" = .ok "Invalid IP" :=
  (claim_C3_amended "zz").1 (by decide)

/-- C4 counterexample: a cycle whose first connection-table line has a
local-endpoint field with no `:` aborts with an uncaught fault, although the
second line of the same cycle is well formed and processable on its own. -/
theorem claim_C4_counterexample :
    processConnLines ["1: nocolon", "2: 0100007F:0050 x"] = .exn ∧
    processConnLine "2: 0100007F:0050 x" = .ok ⟨"127.0.0.1", 80⟩ := by decide

/-- C4 amended: a malformed connection-table line is not skipped: the fault
it raises propagates and aborts the poll cycle, so no line after it in the
same cycle is processed (lines before it having been processed or not). -/
theorem claim_C4_amended (pre : List String) (bad : String) (post : List String)
    (h : processConnLine bad = .exn) :
    processConnLines (pre ++ bad :: post) = .exn := by
  induction pre with
  | nil => simp [processConnLines, h]
  | cons a t ih =>
    rw [List.cons_append]
    cases ha : processConnLine a with
    | exn => simp [processConnLines, ha]
    | ok r => simp [processConnLines, ha, ih]

/-- C4 witness: the amended theorem applied to a concrete two-line cycle. -/
theorem claim_C4_witness :
    processConnLines ([] ++ "1: nocolon" :: ["2: 0100007F:0050 x"]) = .exn :=
  claim_C4_amended [] "1: nocolon" ["2: 0100007F:0050 x"] (by decide)

/-- C5 counterexample: a move whose destination base name contains the
temp-artifact marker (but whose source does not) still emits an event,
contradicting the claimed suppression for either endpoint. -/
theorem claim_C5_counterexample :
    hasMarker "a/y.goutputstream-1" = true ∧
    on_moved "a/x" "a/y.goutputstream-1" =
      [.renamed "a/x" "a/y.goutputstream-1"] := by decide

/-- C5 amended: only the source path's base name is checked for the marker:
if it contains the marker no event is emitted; otherwise exactly one event is
emitted — "renamed" when source and destination share a parent directory and
"moved" when the parents differ — even when the destination's base name
contains the marker. -/
theorem claim_C5_amended : ∀ src dst : String,
    (hasMarker src = true → on_moved src dst = []) ∧
    (hasMarker src = false → pyDirname src.data = pyDirname dst.data →
        on_moved src dst = [.renamed src dst]) ∧
    (hasMarker src = false → pyDirname src.data ≠ pyDirname dst.data →
        on_moved src dst = [.moved src dst]) := by
  intro src dst
  refine ⟨fun h => ?_, fun h hd => ?_, fun h hd => ?_⟩
  · simp [on_moved, h]
  · simp [on_moved, h, hd]
  · simp [on_moved, h, hd]

/-- C5 witness: the amended theorem applied to a move across directories. -/
theorem claim_C5_witness : on_moved "a/x" "b/x" = [.moved "a/x" "b/x"] :=
  (claim_C5_amended "a/x" "b/x").2.2 (by decide) (by decide)

/-- C6: for a newly added PID, a command-line read that fails because the
process already exited emits zero events, and a successful read whose cleaned
command line is empty emits exactly one "no command available" event. -/
theorem claim_C6 : ∀ (readCmd : Pid → Option (List Char)) (pid : Pid),
    (readCmd pid = none → processNewPid readCmd pid = []) ∧
    (∀ raw, readCmd pid = some raw → (cleanCmd raw).isEmpty = true →
        processNewPid readCmd pid = [.startedNoCmd pid]) := by
  intro readCmd pid
  refine ⟨fun h => ?_, fun raw h hc => ?_⟩
  · simp [processNewPid, h]
  · simp [processNewPid, h, hc]

/-- C6 witness: a vanished process yields no event; a process whose cmdline
is a single NUL byte yields exactly the no-command event. -/
theorem claim_C6_witness :
    processNewPid (fun _ => none) ['1'] = [] ∧
    processNewPid (fun _ => some ['\x00']) ['1'] = [.startedNoCmd ['1']] :=
  ⟨(claim_C6 (fun _ => none) ['1']).1 rfl,
   (claim_C6 (fun _ => some ['\x00']) ['1']).2 ['\x00'] rfl (by decide)⟩

/-- C7: for a creation whose base name contains the temp-artifact marker: if
the derived original path exists at that instant, the TempFileLink is
recorded and exactly one correlation event referencing the original is
emitted; if it does not exist, no event is emitted and the state is
unchanged; in neither case is a plain creation event emitted.  (`ex` models
`os.path.exists`, for which `ex "" = false` always holds in Python.) -/
theorem claim_C7 : ∀ (ex : String → Bool) (st : FileAuditState) (src : String)
    (is_directory : Bool), hasMarker src = true → ex "" = false →
    (ex (derivedOriginal src) = true →
        on_created ex st src is_directory =
          ({ temporary_file_map :=
                (src, derivedOriginal src) :: st.temporary_file_map },
           [.tempCorrelation src (derivedOriginal src)])) ∧
    (ex (derivedOriginal src) = false →
        on_created ex st src is_directory = (st, [])) := by
  intro ex st src isd hm hemp
  constructor
  · intro hex
    have hne : (derivedOriginal src).isEmpty = false := by
      cases he : (derivedOriginal src).isEmpty
      · rfl
      · exfalso
        rw [(String.isEmpty_iff _).mp he] at hex
        rw [hemp] at hex
        exact Bool.noConfusion hex
    simp [on_created, hm, find_original_file, hex, hne]
  · intro hex
    simp [on_created, hm, find_original_file, hex]

/-- C7 witness: creating `foo.goutputstream-1` while `foo` exists records the
link and emits exactly the correlation event. -/
theorem claim_C7_witness :
    on_created (fun p => p == "foo") ⟨[]⟩ "foo.goutputstream-1" false =
      (⟨[("foo.goutputstream-1", "foo")]⟩,
       [.tempCorrelation "foo.goutputstream-1" "foo"]) := by
  have h := (claim_C7 (fun p => p == "foo") ⟨[]⟩ "foo.goutputstream-1" false
    (by decide) (by decide)).1 (by decide)
  have hd : derivedOriginal "foo.goutputstream-1" = "foo" := by decide
  rw [hd] at h
  exact h

/-- C8: a deletion whose base name contains the temp-artifact marker emits
zero events; otherwise exactly one deletion event is emitted — a directory
deletion for a directory entry and a file deletion otherwise. -/
theorem claim_C8 : ∀ (src : String) (is_directory : Bool),
    (hasMarker src = true → on_deleted src is_directory = []) ∧
    (hasMarker src = false → is_directory = true →
        on_deleted src is_directory = [.dirDeleted src]) ∧
    (hasMarker src = false → is_directory = false →
        on_deleted src is_directory = [.fileDeleted src]) := by
  intro src isd
  refine ⟨fun h => ?_, fun h hd => ?_, fun h hd => ?_⟩
  · simp [on_deleted, h]
  · simp [on_deleted, h, hd]
  · simp [on_deleted, h, hd]

/-- C8 witness: deleting a marker-named file emits nothing; deleting a plain
directory emits exactly the directory-deletion event. -/
theorem claim_C8_witness :
    on_deleted "a/x.goutputstream-1" false = [] ∧
    on_deleted "a/x" true = [.dirDeleted "a/x"] :=
  ⟨(claim_C8 "a/x.goutputstream-1" false).1 (by decide),
   (claim_C8 "a/x" true).2.1 (by decide) rfl⟩

/-- C9: a missing root-path argument, or a root path that does not exist or
is not a directory, makes startup exit with a non-zero status before any
observer is started. -/
theorem claim_C9 : ∀ (argv : List String) (path_exists isdir : String → Bool),
    (argv.length < 2 →
        ∃ c, mainStartup argv path_exists isdir = .earlyExit c ∧ c ≠ 0) ∧
    (∀ a0 path rest, argv = a0 :: path :: rest →
        path_exists path = false ∨ isdir path = false →
        ∃ c, mainStartup argv path_exists isdir = .earlyExit c ∧ c ≠ 0) := by
  intro argv pe isd
  constructor
  · intro hlen
    match argv with
    | [] => exact ⟨1, rfl, by decide⟩
    | [a] => exact ⟨1, rfl, by decide⟩
    | a :: b :: t => exact absurd hlen (by simp)
  · intro a0 path rest he hbad
    subst he
    refine ⟨1, ?_, by decide⟩
    rcases hbad with hbad | hbad <;> simp [mainStartup, hbad]

/-- C9 witness: the theorem applied to a missing argument and to a
nonexistent path. -/
theorem claim_C9_witness :
    (∃ c, mainStartup ["audit_tool.py"] (fun _ => true) (fun _ => true) =
        .earlyExit c ∧ c ≠ 0) ∧
    (∃ c, mainStartup ["audit_tool.py", "nope"] (fun _ => false)
        (fun _ => false) = .earlyExit c ∧ c ≠ 0) :=
  ⟨(claim_C9 ["audit_tool.py"] (fun _ => true) (fun _ => true)).1 (by decide),
   (claim_C9 ["audit_tool.py", "nope"] (fun _ => false) (fun _ => false)).2
     "audit_tool.py" "nope" [] rfl (Or.inl rfl)⟩

theorem processNewPid_none {readCmd : Pid → Option (List Char)} {pid : Pid}
    (h : readCmd pid = none) : processNewPid readCmd pid = [] := by
  unfold processNewPid
  rw [h]

theorem processNewPid_some {readCmd : Pid → Option (List Char)} {pid : Pid}
    {raw : List Char} (h : readCmd pid = some raw) :
    processNewPid readCmd pid =
      if (cleanCmd raw).isEmpty then [ProcEvent.startedNoCmd pid]
      else [ProcEvent.started pid (cleanCmd raw)] := by
  unfold processNewPid
  rw [h]

theorem epid_of_mem_processNewPid {readCmd : Pid → Option (List Char)}
    {x : Pid} {e : ProcEvent} (h : e ∈ processNewPid readCmd x) : e.epid = x := by
  cases hr : readCmd x with
  | none => rw [processNewPid_none hr] at h; simp at h
  | some raw =>
    rw [processNewPid_some hr] at h
    split_ifs at h <;> simp at h <;> subst h <;> rfl

theorem terminated_not_mem_processNewPid
    (readCmd : Pid → Option (List Char)) (x p : Pid) :
    ProcEvent.terminated p ∉ processNewPid readCmd x := by
  intro hmem
  cases hr : readCmd x with
  | none => rw [processNewPid_none hr] at hmem; simp at hmem
  | some raw =>
    rw [processNewPid_some hr] at hmem
    split_ifs at hmem <;> simp at hmem

/-- C10: on the very first polling cycle the previous snapshot is empty, so
the diff classifies every live PID as added and none as removed: no
termination event is emitted, each live PID whose command line is readable
gets exactly one start event, and the snapshot is replaced by the current
one. -/
theorem claim_C10 : ∀ (readCmd : Pid → Option (List Char))
    (entries : List (List Char)),
    snapshotDiff (∅ : Finset Pid) (currentPids entries) =
      (currentPids entries, ∅) ∧
    (processCycle readCmd ∅ (currentPids entries)).2 = currentPids entries ∧
    (∀ p : Pid, Multiset.count (ProcEvent.terminated p)
        (processCycle readCmd ∅ (currentPids entries)).1 = 0) ∧
    (∀ pid ∈ currentPids entries, ∀ raw, readCmd pid = some raw →
        Multiset.count
          (if (cleanCmd raw).isEmpty then ProcEvent.startedNoCmd pid
           else ProcEvent.started pid (cleanCmd raw))
          (processCycle readCmd ∅ (currentPids entries)).1 = 1) := by
  intro readCmd entries
  have hdiff : snapshotDiff (∅ : Finset Pid) (currentPids entries) =
      (currentPids entries, ∅) := by
    simp [snapshotDiff, Finset.sdiff_empty, Finset.empty_sdiff]
  have hcycle : (processCycle readCmd ∅ (currentPids entries)).1 =
      newPidEvents readCmd (currentPids entries) + terminatedEvents ∅ := by
    unfold processCycle
    rw [hdiff]
  refine ⟨hdiff, rfl, fun p => ?_, fun pid hpid raw hraw => ?_⟩
  · rw [hcycle, Multiset.count_add]
    have h1 : Multiset.count (ProcEvent.terminated p)
        (newPidEvents readCmd (currentPids entries)) = 0 := by
      unfold newPidEvents
      rw [Multiset.count_sum']
      exact Finset.sum_eq_zero (fun x _ => by
        rw [Multiset.count_eq_zero]
        intro hmem
        exact terminated_not_mem_processNewPid readCmd x p
          (Multiset.mem_coe.mp hmem))
    have h2 : Multiset.count (ProcEvent.terminated p) (terminatedEvents ∅) = 0 := by
      simp [terminatedEvents]
    omega
  · rw [hcycle, Multiset.count_add]
    set e := (if (cleanCmd raw).isEmpty then ProcEvent.startedNoCmd pid
      else ProcEvent.started pid (cleanCmd raw)) with he
    have hp : e.epid = pid := by
      rw [he]
      rcases Bool.eq_false_or_eq_true ((cleanCmd raw).isEmpty) with hc | hc <;>
        rw [hc] <;> rfl
    have h2 : Multiset.count e (terminatedEvents ∅) = 0 := by
      simp [terminatedEvents]
    have h1 : Multiset.count e (newPidEvents readCmd (currentPids entries)) = 1 := by
      unfold newPidEvents
      rw [Multiset.count_sum']
      have hside : ∀ b ∈ currentPids entries, b ≠ pid →
          Multiset.count e (processNewPid readCmd b : Multiset ProcEvent) = 0 := by
        intro b hb hbne
        rw [Multiset.count_eq_zero]
        intro hmem
        have hx := epid_of_mem_processNewPid (Multiset.mem_coe.mp hmem)
        rw [hp] at hx
        exact hbne hx.symm
      rw [Finset.sum_eq_single_of_mem pid hpid hside, he,
        processNewPid_some hraw]
      split_ifs with hc <;> simp
    omega

/-- C10 witness: a first cycle over `/proc` entries `"1"` and `"junk"` with a
readable command line for PID 1 yields exactly one start event for it. -/
theorem claim_C10_witness :
    Multiset.count
      (if (cleanCmd "/bin/sh".data).isEmpty then ProcEvent.startedNoCmd ['1']
       else ProcEvent.started ['1'] (cleanCmd "/bin/sh".data))
      (processCycle (fun p => if p == ['1'] then some "/bin/sh".data else none)
        ∅ (currentPids [['1'], "junk".data])).1 = 1 :=
  (claim_C10 (fun p => if p == ['1'] then some "/bin/sh".data else none)
      [['1'], "junk".data]).2.2.2 ['1'] (by decide) "/bin/sh".data (by decide)
